import Mathlib

/-!
Shallow embedding of the agent-chat client engine (`createAgentChat` and its
helpers): the per-exchange request multiplexer (`aiFetch`), the SSE stream
assembler (`parseSSEStream`), the broadcast reconciler (`handleServerMessage`),
and the facade operations (`sendMessage`, `setMessages`).

Modelling conventions:
* `JSON.parse` of a whole inbound frame is modelled as an `Option Frame`
  argument (`none` = the parse threw and the handler returned early).
* `JSON.parse` of a `chat-response` body into a structured chunk is modelled
  by an uninterpreted parameter `pc : String → Option Chunk`; theorems
  quantify over it and witnesses instantiate it with concrete functions.
* JavaScript string truthiness (`chunk.messageId`, `chunk.delta`) is the
  `≠ ""` test; array values are always truthy.
* The `ReadableStream` controller is a small state machine
  (`live`/`closed`/`errored`): `enqueue` on a non-live controller throws a
  TypeError (modelled by skipping the rest of the handler body), `close` on a
  non-live controller throws (the source wraps it in try/catch, modelled as a
  no-op), `error` on a non-live controller is a no-op per the Streams
  standard.
* Per the WHATWG Streams standard, the `TransformStream` `flush` callback runs
  only when the writable side closes cleanly, i.e. when the source stream is
  closed; when the source stream errors, the pipe aborts the writable side and
  `flush` never runs.  Listener removal performed in `flush` is therefore
  modelled inside the clean-close transition (`ctrlClose`), and no removal
  happens on the errored transition (`ctrlError`).
* An `AbortSignal` fires its abort event at most once; `applyCancel` guards on
  `signalFired` accordingly.
-/

namespace AgentChat

/-- Role of a UIMessage (`"user" | "assistant" | "system"`). -/
inductive Role
  | user
  | assistant
  | system
deriving DecidableEq, Repr

/-- One element of `UIMessage.parts`; the source only ever builds
`{ type: "text", text }` parts. -/
inductive MsgPart
  | text (s : String)
deriving DecidableEq, Repr

/-- The `UIMessage` shape used by the client: id, role and ordered parts. -/
structure UIMessage where
  id : String
  role : Role
  parts : List MsgPart
deriving DecidableEq, Repr

/-- Structured chunk decoded from a `chat-response` body
(`start` / `text-delta` / `finish`, plus a catch-all for unknown tags). -/
inductive Chunk
  | start (messageId : String)
  | textDelta (delta : String)
  | finish
  | other
deriving DecidableEq, Repr

/-- The facade status signal (`"ready" | "streaming" | "error"`). -/
inductive Status
  | ready
  | streaming
  | error
deriving DecidableEq, Repr

/-- State of a ReadableStream default controller, as observable through
`enqueue`/`close`/`error`. -/
inductive CtrlState
  | live
  | closed
  | errored (msg : String)
deriving DecidableEq, Repr

/-- Entry of the `remoteStreams` map: target message id plus the text
accumulated so far for a remotely-initiated exchange. -/
structure RemoteStream where
  messageId : String
  textContent : String
deriving DecidableEq, Repr

/-- The store state touched by `handleServerMessage`: the ordered message list
and the `remoteStreams` map (association list keyed by correlation id). -/
structure ChatSt where
  messages : List UIMessage
  remoteStreams : List (String × RemoteStream)
deriving DecidableEq, Repr

/-- One in-flight `aiFetch` exchange: correlation id, controller state, the
raw chunks delivered to the consumer stream, the `AbortController` flag, the
transport-listener registration flag and the caller-signal flag. -/
structure Exchange where
  xid : String
  ctrl : CtrlState
  delivered : List String
  aborted : Bool
  listenerOn : Bool
  signalFired : Bool
deriving DecidableEq, Repr

/-- Frames sent to the far end via `agent.send`. -/
inductive OutFrame
  | chatRequest (id : String)
  | cancelReq (id : String)
  | chatMessages (messages : List UIMessage)
  | clearReq
deriving DecidableEq, Repr

/-- Parsed inbound frame.  `chatMessages` carries `Option` because the source
guards on `data.messages` being present; `chatResponse` carries the raw body
string, the `done` flag and the `error` flag. -/
inductive Frame
  | clear
  | chatMessages (messages : Option (List UIMessage))
  | chatResponse (id : String) (body : String) (done : Bool) (err : Bool)
  | other
deriving DecidableEq, Repr

/-- Local loop state of `sendMessage` while it consumes the SSE event
sequence. -/
structure LoopState where
  assistantMessageId : Option String
  textContent : String
  messages : List UIMessage
deriving DecidableEq, Repr

/-- The facade-visible signals: message list, status and last error (an
`Error` value is represented by its message string). -/
structure FacadeState where
  messages : List UIMessage
  status : Status
  errorMsg : Option String
deriving DecidableEq, Repr

/-- Outcome of one exchange as seen by `sendMessage`'s consumer: the raw
chunks read before the stream either closed cleanly or errored. -/
inductive StreamOutcome
  | success (chunks : List String)
  | failure (chunks : List String) (msg : String)

/-- Argument of `setMessages`: either a concrete list or an updater
function. -/
inductive MessagesOrFn
  | list (l : List UIMessage)
  | fn (f : List UIMessage → List UIMessage)

/-- Whole-system state: store state, the shared `localRequestIds` set, the
live `aiFetch` exchanges in listener-registration order, the outbound frame
log and the facade signals. -/
structure SysState where
  chat : ChatSt
  localRequestIds : List String
  exchanges : List Exchange
  outbound : List OutFrame
  status : Status
  errorMsg : Option String
deriving DecidableEq, Repr

/-- JS `Set.add`: no duplicate entries. -/
def setAdd (l : List String) (x : String) : List String :=
  if x ∈ l then l else l ++ [x]

/-- JS `Set.delete`. -/
def setDelete (l : List String) (x : String) : List String :=
  l.filter (fun a => a ≠ x)

/-- JS `Map.get` on the `remoteStreams` association list. -/
def rsLookup (k : String) : List (String × RemoteStream) → Option RemoteStream
  | [] => none
  | p :: ps => if p.1 = k then some p.2 else rsLookup k ps

/-- JS `Map.set` (replace the existing binding or append a fresh one). -/
def rsSet (k : String) (v : RemoteStream) :
    List (String × RemoteStream) → List (String × RemoteStream)
  | [] => [(k, v)]
  | p :: ps => if p.1 = k then (k, v) :: ps else p :: rsSet k v ps

/-- JS `Map.delete`. -/
def rsDelete (k : String) (l : List (String × RemoteStream)) :
    List (String × RemoteStream) :=
  l.filter (fun p => p.1 ≠ k)

/-- The `findIndex`-then-copy-update idiom used on the message list: replace
the parts of the first message with the given id by a single text part holding
the full accumulated text; leave the list unchanged when the id is absent. -/
def updateMessage (aid : String) (tc : String) : List UIMessage → List UIMessage
  | [] => []
  | m :: ms =>
    if m.id = aid then { m with parts := [MsgPart.text tc] } :: ms
    else m :: updateMessage aid tc ms

/-- JS `String.trim` on a character list. -/
def jsTrim (l : List Char) : List Char :=
  ((l.dropWhile Char.isWhitespace).reverse.dropWhile Char.isWhitespace).reverse

/-- The SSE line marker, the six characters of `"data: "`. -/
def dataMarker : List Char := ['d', 'a', 't', 'a', ':', ' ']

/-- JS `String.split("\n")` on a character list (always nonempty). -/
def jsSplitNL : List Char → List (List Char)
  | [] => [[]]
  | c :: cs =>
    if c = '\n' then [] :: jsSplitNL cs
    else
      match jsSplitNL cs with
      | [] => [[c]]
      | l :: ls => (c :: l) :: ls

/-- Decode one complete line: lines carrying the `data: ` marker have their
payload (after `slice(6)`) parsed when its trimmed form is nonempty; every
other line, and every payload the parser rejects, yields nothing. -/
def decodeLine (pc : String → Option Chunk) (line : List Char) : Option Chunk :=
  if dataMarker.isPrefixOf line then
    let jsonStr := line.drop 6
    if jsTrim jsonStr ≠ [] then pc (String.mk jsonStr) else none
  else none

/-- One iteration of the `parseSSEStream` read loop: append the incoming text
to the carried buffer, split on newlines, keep the trailing segment as the new
buffer (`lines.pop()`) and decode every completed line in order. -/
def sseStep (pc : String → Option Chunk) (st : List Chunk × List Char)
    (chunk : List Char) : List Chunk × List Char :=
  (st.1 ++ (jsSplitNL (st.2 ++ chunk)).dropLast.filterMap (decodeLine pc),
   (jsSplitNL (st.2 ++ chunk)).getLastD [])

/-- `parseSSEStream`: fold the read loop over the arriving chunks; whatever is
left in the buffer when the stream ends is discarded. -/
def parseSSE (pc : String → Option Chunk) (chunks : List (List Char)) :
    List Chunk :=
  (chunks.foldl (sseStep pc) ([], [])).1

/-- Concatenation of the raw chunks of a stream (the order-preserving join the
chunk boundaries are measured against). -/
def catChunks (cs : List (List Char)) : List Char :=
  cs.foldl (fun a c => a ++ c) []

/-- The `handleServerMessage` listener (the broadcast reconciler).  `none`
models an inbound frame whose JSON parse threw (early return).  The
`chat-response` branch never consults the frame's `error` flag; a body the
chunk parser rejects is swallowed by the inner try/catch, which also skips the
`finish || done` cleanup. -/
def handleServerMessage (pc : String → Option Chunk) (locals : List String)
    (fr : Option Frame) (st : ChatSt) : ChatSt :=
  match fr with
  | none => st
  | some Frame.clear => { st with messages := [] }
  | some (Frame.chatMessages ms) =>
    match ms with
    | some l => { st with messages := l }
    | none => st
  | some (Frame.chatResponse rid body done _err) =>
    if rid ∈ locals then st
    else
      match pc body with
      | none => st
      | some (Chunk.start mid) =>
        if mid ≠ "" then
          { messages := st.messages ++ [⟨mid, Role.assistant, []⟩],
            remoteStreams := rsSet rid ⟨mid, ""⟩ st.remoteStreams }
        else if done then { st with remoteStreams := rsDelete rid st.remoteStreams }
        else st
      | some (Chunk.textDelta d) =>
        if d ≠ "" then
          match rsLookup rid st.remoteStreams with
          | some rs =>
            { messages := updateMessage rs.messageId (rs.textContent ++ d) st.messages,
              remoteStreams := rsSet rid ⟨rs.messageId, rs.textContent ++ d⟩ st.remoteStreams }
          | none => st
        else if done then { st with remoteStreams := rsDelete rid st.remoteStreams }
        else st
      | some Chunk.finish => { st with remoteStreams := rsDelete rid st.remoteStreams }
      | some Chunk.other =>
        if done then { st with remoteStreams := rsDelete rid st.remoteStreams }
        else st
  | some Frame.other => st

/-- `controller.error(e)`: transitions a live controller to the errored state;
a no-op on a controller that is not readable (Streams standard). -/
def ctrlError (e : Exchange) (msg : String) : Exchange :=
  match e.ctrl with
  | CtrlState.live => { e with ctrl := CtrlState.errored msg }
  | _ => e

/-- `try { controller.close() } catch {}` together with the downstream
`TransformStream` flush: a clean close of a live controller closes the
writable side of the pipe, so `flush` runs and removes the transport listener;
closing a non-live controller throws and the catch swallows it. -/
def ctrlClose (e : Exchange) : Exchange :=
  match e.ctrl with
  | CtrlState.live => { e with ctrl := CtrlState.closed, listenerOn := false }
  | _ => e

/-- `controller.enqueue` on a live controller; callers must handle the
non-live (throwing) case themselves. -/
def ctrlEnqueue (e : Exchange) (c : String) : Exchange :=
  match e.ctrl with
  | CtrlState.live => { e with delivered := e.delivered ++ [c] }
  | _ => e

/-- The string enqueued for one response body. -/
def sseWrap (body : String) : String :=
  "data: " ++ body ++ "\n\n"

/-- Nonemptiness of the trimmed body, the `data.body?.trim()` truthiness
test. -/
def trimmedNonempty (body : String) : Prop :=
  jsTrim body.data ≠ []

instance (body : String) : Decidable (trimmedNonempty body) := by
  unfold trimmedNonempty; infer_instance

/-- The per-exchange `onMessage` listener of `aiFetch`.  A frame whose JSON
parse threw (`none`), a frame of another type, or a frame with a foreign id
leaves everything unchanged.  An error frame errors the controller, aborts and
releases the id — the listener itself stays registered.  Otherwise a nonempty
body is enqueued; `enqueue` on a non-live controller throws a TypeError, which
aborts the rest of the handler (modelled by returning early), and a `done`
frame closes the controller, aborts and releases the id. -/
def onMessageEx (fr : Option Frame) (e : Exchange) (locals : List String) :
    Exchange × List String :=
  match fr with
  | some (Frame.chatResponse rid body done err) =>
    if e.listenerOn = true ∧ rid = e.xid then
      if err = true then
        ({ ctrlError e body with aborted := true }, setDelete locals e.xid)
      else if trimmedNonempty body ∧ e.ctrl ≠ CtrlState.live then
        (e, locals)
      else
        let e1 := if trimmedNonempty body then ctrlEnqueue e (sseWrap body) else e
        if done = true then ({ ctrlClose e1 with aborted := true }, setDelete locals e.xid)
        else (e1, locals)
    else (e, locals)
  | _ => (e, locals)

/-- The abort listener installed on the caller's signal: send a cancel frame,
abort the local controller's AbortController, close the consumer stream
(try/catch) and release the id.  An AbortSignal fires at most once, so a
second invocation is a no-op. -/
def applyCancel (e : Exchange) (locals : List String) (outbound : List OutFrame) :
    Exchange × List String × List OutFrame :=
  if e.signalFired then (e, locals, outbound)
  else
    let e1 := { e with signalFired := true }
    let ob := outbound ++ [OutFrame.cancelReq e1.xid]
    let e2 := { e1 with aborted := true }
    (ctrlClose e2, setDelete locals e2.xid, ob)

/-- The setup portion of `aiFetch`: register the fresh id in
`localRequestIds`, attach one transport listener and send the request
frame. -/
def startExchange (rid : String) (s : SysState) : SysState :=
  { s with
    localRequestIds := setAdd s.localRequestIds rid,
    exchanges := s.exchanges ++ [⟨rid, CtrlState.live, [], false, true, false⟩],
    outbound := s.outbound ++ [OutFrame.chatRequest rid] }

/-- Deliver one inbound frame to every per-exchange listener, in registration
order, threading the shared `localRequestIds` set. -/
def deliverList (fr : Option Frame) :
    List Exchange → List String → List Exchange × List String
  | [], locals => ([], locals)
  | e :: es, locals =>
    let r := onMessageEx fr e locals
    let rs := deliverList fr es r.2
    (r.1 :: rs.1, rs.2)

/-- Delivery of one inbound transport message: `handleServerMessage` runs
first (it was registered at setup time), then every per-exchange listener. -/
def deliverFrame (pc : String → Option Chunk) (fr : Option Frame)
    (s : SysState) : SysState :=
  let chat1 := handleServerMessage pc s.localRequestIds fr s.chat
  let r := deliverList fr s.exchanges s.localRequestIds
  { s with chat := chat1, exchanges := r.1, localRequestIds := r.2 }

/-- Delivery of a whole sequence of inbound transport messages. -/
def deliverAll (pc : String → Option Chunk) (frs : List (Option Frame))
    (s : SysState) : SysState :=
  frs.foldl (fun a fr => deliverFrame pc fr a) s

/-- One iteration of the `sendMessage` streaming loop over decoded chunks:
`start` (with a truthy messageId) records the assistant id and appends an
empty assistant message; `text-delta` (with a truthy delta) accumulates the
text and, when an assistant id is known, rewrites that message's parts with
the accumulated text; everything else is ignored. -/
def chunkStep (st : LoopState) (c : Chunk) : LoopState :=
  match c with
  | Chunk.start mid =>
    if mid ≠ "" then
      { st with assistantMessageId := some mid,
                messages := st.messages ++ [⟨mid, Role.assistant, []⟩] }
    else st
  | Chunk.textDelta d =>
    if d ≠ "" then
      match st.assistantMessageId with
      | some aid =>
        { assistantMessageId := st.assistantMessageId,
          textContent := st.textContent ++ d,
          messages := updateMessage aid (st.textContent ++ d) st.messages }
      | none => { st with textContent := st.textContent ++ d }
    else st
  | Chunk.finish => st
  | Chunk.other => st

/-- The `sendMessage` streaming loop, run from a fresh local state over the
decoded event sequence. -/
def runLoop (evs : List Chunk) (msgs : List UIMessage) : LoopState :=
  evs.foldl chunkStep ⟨none, "", msgs⟩

/-- The part list held by the streaming target for a given accumulated text:
empty until the first nonempty delta, a single text part afterwards. -/
def accParts (t : String) : List MsgPart :=
  if t = "" then [] else [MsgPart.text t]

/-- The synchronous head of `sendMessage`: append the user message, flip
status to streaming and clear the error signal. -/
def sendMessageBegin (u : UIMessage) (st : FacadeState) : FacadeState :=
  { messages := st.messages ++ [u], status := Status.streaming, errorMsg := none }

/-- The tail of `sendMessage`: run the streaming loop over the chunks the
consumer stream delivered; a cleanly closed stream ends with status ready,
a stream errored by an exchange-error frame lands in the catch, which records
the error message and flips status to error. -/
def sendMessageFinish (pc : String → Option Chunk) (outcome : StreamOutcome)
    (st : FacadeState) : FacadeState :=
  match outcome with
  | StreamOutcome.success chunks =>
    { st with
      messages := (runLoop (parseSSE pc (chunks.map String.data)) st.messages).messages,
      status := Status.ready }
  | StreamOutcome.failure chunks msg =>
    { messages := (runLoop (parseSSE pc (chunks.map String.data)) st.messages).messages,
      status := Status.error,
      errorMsg := some msg }

/-- `setMessages`: an updater function is applied to the local list, but the
frame sent to the far end carries `Array.isArray(messagesOrFn) ?
messagesOrFn : []`. -/
def setMessagesModel (mf : MessagesOrFn) (st : FacadeState)
    (outbound : List OutFrame) : FacadeState × List OutFrame :=
  match mf with
  | MessagesOrFn.list l =>
    ({ st with messages := l }, outbound ++ [OutFrame.chatMessages l])
  | MessagesOrFn.fn f =>
    ({ st with messages := f st.messages }, outbound ++ [OutFrame.chatMessages []])

/-!  Machinery for reasoning about the incremental line splitter.  `linesOf`
computes, in one structural pass, the pair (completed lines, trailing
buffer) that the source obtains with `split("\n")` followed by `pop()`. -/

/-- Effect of one leading character on the (completed lines, buffer) pair of
the remaining text. -/
def consLine (c : Char) (p : List (List Char) × List Char) :
    List (List Char) × List Char :=
  if c = '\n' then ([] :: p.1, p.2)
  else
    match p.1 with
    | [] => ([], c :: p.2)
    | l :: t => ((c :: l) :: t, p.2)

/-- Completed lines and trailing buffer of a text. -/
def linesOf : List Char → List (List Char) × List Char
  | [] => ([], [])
  | c :: cs => consLine c (linesOf cs)

/-- How (lines, buffer) pairs of adjacent texts combine. -/
def combineLines (p q : List (List Char) × List Char) :
    List (List Char) × List Char :=
  match q.1 with
  | [] => (p.1, p.2 ++ q.2)
  | l :: t => (p.1 ++ (p.2 ++ l) :: t, q.2)

theorem jsSplitNL_eq_linesOf (s : List Char) :
    jsSplitNL s = (linesOf s).1 ++ [(linesOf s).2] := by
  induction s with
  | nil => rfl
  | cons c cs ih =>
    by_cases hc : c = '\n'
    · simp [jsSplitNL, linesOf, consLine, hc, ih]
    · rcases h1 : (linesOf cs).1 with _ | ⟨l, t⟩
      · simp [jsSplitNL, linesOf, consLine, hc, ih, h1]
      · simp [jsSplitNL, linesOf, consLine, hc, ih, h1]

theorem consLine_combine (c : Char) (p q : List (List Char) × List Char) :
    consLine c (combineLines p q) = combineLines (consLine c p) q := by
  rcases p with ⟨ls1, b1⟩
  rcases q with ⟨ls2, b2⟩
  by_cases hc : c = '\n'
  · cases ls2 with
    | nil => simp [consLine, combineLines, hc]
    | cons m ms => simp [consLine, combineLines, hc]
  · cases ls2 with
    | nil =>
      cases ls1 with
      | nil => simp [consLine, combineLines, hc]
      | cons l t => simp [consLine, combineLines, hc]
    | cons m ms =>
      cases ls1 with
      | nil => simp [consLine, combineLines, hc]
      | cons l t => simp [consLine, combineLines, hc]

theorem linesOf_append (x y : List Char) :
    linesOf (x ++ y) = combineLines (linesOf x) (linesOf y) := by
  induction x with
  | nil =>
    rcases h : linesOf y with ⟨ls, b⟩
    cases ls with
    | nil => simp [linesOf, combineLines, h]
    | cons l t => simp [linesOf, combineLines, h]
  | cons c cs ih =>
    show consLine c (linesOf (cs ++ y)) = combineLines (consLine c (linesOf cs)) (linesOf y)
    rw [ih, consLine_combine]

theorem nl_not_mem_linesOf_buf (s : List Char) : '\n' ∉ (linesOf s).2 := by
  induction s with
  | nil => simp [linesOf]
  | cons c cs ih =>
    by_cases hc : c = '\n'
    · simpa [linesOf, consLine, hc] using ih
    · rcases h1 : (linesOf cs).1 with _ | ⟨l, t⟩
      · simp only [linesOf, consLine, hc, if_neg, h1]
        intro hmem
        rcases List.mem_cons.mp hmem with h | h
        · exact hc h.symm
        · exact ih h
      · simpa [linesOf, consLine, hc, h1] using ih

theorem linesOf_no_nl (b : List Char) (hb : '\n' ∉ b) : linesOf b = ([], b) := by
  induction b with
  | nil => rfl
  | cons c cs ih =>
    have hc : c ≠ '\n' := fun h => hb (h ▸ List.mem_cons_self c cs)
    have ihc : linesOf cs = ([], cs) := ih (fun h => hb (List.mem_cons_of_mem c h))
    simp [linesOf, consLine, ihc, fun h => hc h]

theorem getLastD_concat' {α : Type} (xs : List α) (x d : α) :
    (xs ++ [x]).getLastD d = x := by
  induction xs with
  | nil => rfl
  | cons a as ih =>
    cases as with
    | nil => rfl
    | cons b bs => simpa using ih

/-- `sseStep` rewritten through `linesOf`. -/
theorem sseStep_eq (pc : String → Option Chunk) (st : List Chunk × List Char)
    (chunk : List Char) :
    sseStep pc st chunk =
      (st.1 ++ (linesOf (st.2 ++ chunk)).1.filterMap (decodeLine pc),
       (linesOf (st.2 ++ chunk)).2) := by
  unfold sseStep
  rw [jsSplitNL_eq_linesOf, List.dropLast_concat, getLastD_concat']

/-- The read loop is a homomorphism over chunk concatenation: processing the
concatenation of two chunks equals processing them one after the other. -/
theorem sseStep_append (pc : String → Option Chunk) (st : List Chunk × List Char)
    (a b : List Char) :
    sseStep pc st (a ++ b) = sseStep pc (sseStep pc st a) b := by
  rw [sseStep_eq, sseStep_eq, sseStep_eq]
  have h1 : st.2 ++ (a ++ b) = (st.2 ++ a) ++ b := by rw [List.append_assoc]
  rw [h1, linesOf_append]
  have hbuf : linesOf ((linesOf (st.2 ++ a)).2 ++ b) =
      combineLines ([], (linesOf (st.2 ++ a)).2) (linesOf b) := by
    rw [linesOf_append, linesOf_no_nl _ (nl_not_mem_linesOf_buf _)]
  rw [hbuf]
  rcases h : linesOf b with ⟨ls, bb⟩
  cases ls with
  | nil => simp [combineLines]
  | cons m ms => simp [combineLines, List.filterMap_append, List.append_assoc]

/-- Folding the read loop over a chunk list equals one pass over the
concatenated text: the decoded event sequence is independent of chunk
boundaries. -/
theorem parseSSE_eq_cat (pc : String → Option Chunk) (cs : List (List Char)) :
    cs.foldl (sseStep pc) ([], []) = sseStep pc ([], []) (catChunks cs) := by
  induction cs using List.reverseRecOn with
  | nil => rfl
  | append_singleton ds d ih =>
    have hcat : catChunks (ds ++ [d]) = catChunks ds ++ d := by
      unfold catChunks
      rw [List.foldl_append]
      rfl
    rw [List.foldl_append, ih, hcat, sseStep_append]
    rfl

/-- Chunk-boundary independence of the SSE decoder. -/
theorem parseSSE_join_eq (pc : String → Option Chunk) (cs cs' : List (List Char))
    (h : catChunks cs = catChunks cs') : parseSSE pc cs = parseSSE pc cs' := by
  unfold parseSSE
  rw [parseSSE_eq_cat, parseSSE_eq_cat, h]

theorem str_append_ne_empty (a b : String) (h : b ≠ "") : a ++ b ≠ "" := by
  intro hc
  rw [String.ext_iff, String.data_append, List.append_eq_nil] at hc
  exact h (String.ext_iff.mpr hc.2)

/-- Updating the message appended at the tail, when no earlier message carries
its id, rewrites exactly that message's parts. -/
theorem updateMessage_append_fresh (m tc : String) (r : Role) (ps : List MsgPart)
    (msgs0 : List UIMessage) (hfresh : ∀ msg ∈ msgs0, msg.id ≠ m) :
    updateMessage m tc (msgs0 ++ [⟨m, r, ps⟩]) = msgs0 ++ [⟨m, r, [MsgPart.text tc]⟩] := by
  induction msgs0 with
  | nil => simp [updateMessage]
  | cons a as ih =>
    have ha : a.id ≠ m := hfresh a (List.mem_cons_self a as)
    have ih2 := ih (fun msg hm => hfresh msg (List.mem_cons_of_mem a hm))
    simp only [List.cons_append, updateMessage, if_neg ha, List.append_eq, ih2]

/-- Folding a run of `text-delta` events over a loop state whose target
message sits at the tail: the accumulated text is extended by each nonempty
fragment in order, and the target's parts reflect the accumulation. -/
theorem runDeltas (m : String) (fs : List String) (acc : String) (r : Role)
    (msgs0 : List UIMessage) (hfresh : ∀ msg ∈ msgs0, msg.id ≠ m) :
    List.foldl chunkStep
        ⟨some m, acc, msgs0 ++ [⟨m, r, accParts acc⟩]⟩ (fs.map Chunk.textDelta)
      = ⟨some m, fs.foldl (fun a f => a ++ f) acc,
         msgs0 ++ [⟨m, r, accParts (fs.foldl (fun a f => a ++ f) acc)⟩]⟩ := by
  induction fs generalizing acc with
  | nil => rfl
  | cons f fs ih =>
    by_cases hf : f = ""
    · have h1 : chunkStep ⟨some m, acc, msgs0 ++ [⟨m, r, accParts acc⟩]⟩
          (Chunk.textDelta f) = ⟨some m, acc, msgs0 ++ [⟨m, r, accParts acc⟩]⟩ := by
        simp [chunkStep, hf]
      have h2 : acc ++ f = acc := by rw [hf, String.append_empty]
      simp only [List.map_cons, List.foldl_cons, h1, h2, ih acc]
    · have hne : acc ++ f ≠ "" := str_append_ne_empty acc f hf
      have h1 : chunkStep ⟨some m, acc, msgs0 ++ [⟨m, r, accParts acc⟩]⟩
          (Chunk.textDelta f)
          = ⟨some m, acc ++ f, msgs0 ++ [⟨m, r, accParts (acc ++ f)⟩]⟩ := by
        simp only [chunkStep, if_pos hf]
        rw [updateMessage_append_fresh m (acc ++ f) r (accParts acc) msgs0 hfresh]
        simp [accParts, hne]
      simp only [List.map_cons, List.foldl_cons, h1, ih (acc ++ f)]

/-- Running the `sendMessage` loop over a `start` event followed by a run of
`text-delta` events. -/
theorem runLoop_start (m : String) (fs : List String) (msgs0 : List UIMessage)
    (hm : m ≠ "") (hfresh : ∀ msg ∈ msgs0, msg.id ≠ m) :
    runLoop (Chunk.start m :: fs.map Chunk.textDelta) msgs0
      = ⟨some m, fs.foldl (fun a f => a ++ f) "",
         msgs0 ++ [⟨m, Role.assistant, accParts (fs.foldl (fun a f => a ++ f) "")⟩]⟩ := by
  unfold runLoop
  have h1 : chunkStep ⟨none, "", msgs0⟩ (Chunk.start m)
      = ⟨some m, "", msgs0 ++ [⟨m, Role.assistant, accParts ""⟩]⟩ := by
    simp [chunkStep, hm, accParts]
  simp only [List.foldl_cons, h1, runDeltas m fs "" Role.assistant msgs0 hfresh]

/-- C1: for every sequence of text-delta events carrying fragments f1..fn for
one message identifier, after all of them are applied the target Message's
single text part equals the concatenation f1+f2+...+fn in arrival order,
regardless of how the raw `data: <json>` lines are split across incoming
chunk boundaries (partial trailing lines are buffered until complete). -/
theorem c1_delta_concatenation (pc : String → Option Chunk)
    (cs cs' : List (List Char)) (m : String) (fs : List String)
    (msgs0 : List UIMessage)
    (hjoin : catChunks cs = catChunks cs')
    (hev : parseSSE pc cs = Chunk.start m :: fs.map Chunk.textDelta)
    (hm : m ≠ "")
    (hfresh : ∀ msg ∈ msgs0, msg.id ≠ m)
    (hconc : fs.foldl (fun a f => a ++ f) "" ≠ "") :
    (runLoop (parseSSE pc cs') msgs0).messages
      = msgs0 ++ [⟨m, Role.assistant,
          [MsgPart.text (fs.foldl (fun a f => a ++ f) "")]⟩] := by
  have h1 : parseSSE pc cs' = Chunk.start m :: fs.map Chunk.textDelta := by
    rw [← parseSSE_join_eq pc cs cs' hjoin, hev]
  rw [h1, runLoop_start m fs msgs0 hm hfresh]
  simp [accParts, hconc]

theorem c1_delta_concatenation_witness :
    (runLoop (parseSSE
        (fun s => if s = "S" then some (Chunk.start ("m1"))
          else if s = "D1" then some (Chunk.textDelta ("He"))
          else if s = "D2" then some (Chunk.textDelta ("llo")) else none)
        ["data: S\nda".data, "ta: D1\ndata: D2\n".data]) []).messages
      = [] ++ [⟨"m1", Role.assistant,
          [MsgPart.text ((["He", "llo"] : List String).foldl (fun a f => a ++ f) "")]⟩] :=
  c1_delta_concatenation
    (fun s => if s = "S" then some (Chunk.start ("m1"))
      else if s = "D1" then some (Chunk.textDelta ("He"))
      else if s = "D2" then some (Chunk.textDelta ("llo")) else none)
    ["data: S\ndata: D1\ndata: D2\n".data]
    ["data: S\nda".data, "ta: D1\ndata: D2\n".data]
    ("m1") ["He", "llo"] []
    (by decide) (by decide) (by decide) (by decide) (by decide)

/-- A non-live controller never delivers again, and its state is frozen:
every inbound frame leaves `delivered` and `ctrl` untouched. -/
theorem onMessageEx_quiesced (fr : Option Frame) (e : Exchange) (l : List String)
    (h : e.ctrl ≠ CtrlState.live) :
    (onMessageEx fr e l).1.delivered = e.delivered ∧
      (onMessageEx fr e l).1.ctrl = e.ctrl ∧
      (onMessageEx fr e l).1.listenerOn = e.listenerOn := by
  cases fr with
  | none => exact ⟨rfl, rfl, rfl⟩
  | some f =>
    cases f with
    | clear => exact ⟨rfl, rfl, rfl⟩
    | chatMessages ms => exact ⟨rfl, rfl, rfl⟩
    | other => exact ⟨rfl, rfl, rfl⟩
    | chatResponse rid body done err =>
      rcases hc : e.ctrl with _ | _ | msg
      · exact absurd hc h
      · simp only [onMessageEx]
        split_ifs <;>
          simp_all [ctrlError, ctrlClose, ctrlEnqueue, hc, trimmedNonempty]
      · simp only [onMessageEx]
        split_ifs <;>
          simp_all [ctrlError, ctrlClose, ctrlEnqueue, hc, trimmedNonempty]

/-- Per-exchange listeners only ever shrink the shared id set. -/
theorem onMessageEx_locals (fr : Option Frame) (e : Exchange) (l : List String) :
    ∀ x, x ∈ (onMessageEx fr e l).2 → x ∈ l := by
  intro x hx
  cases fr with
  | none => exact hx
  | some f =>
    cases f with
    | clear => exact hx
    | chatMessages ms => exact hx
    | other => exact hx
    | chatResponse rid body done err =>
      simp only [onMessageEx] at hx
      split_ifs at hx <;>
        simp_all [setDelete, List.mem_filter]

theorem deliverList_cons (fr : Option Frame) (e : Exchange) (es : List Exchange)
    (l : List String) :
    deliverList fr (e :: es) l
      = ((onMessageEx fr e l).1 :: (deliverList fr es (onMessageEx fr e l).2).1,
         (deliverList fr es (onMessageEx fr e l).2).2) := rfl

theorem deliverList_locals (fr : Option Frame) (es : List Exchange)
    (l : List String) : ∀ x, x ∈ (deliverList fr es l).2 → x ∈ l := by
  induction es generalizing l with
  | nil => intro x hx; exact hx
  | cons e es ih =>
    intro x hx
    rw [deliverList_cons] at hx
    exact onMessageEx_locals fr e l x (ih _ x hx)

/-- Invariant carried across frame deliveries for a cancelled (or otherwise
terminated) exchange sitting at the head of the listener list: its delivered
chunks are frozen, its controller is not live, and its identifier stays out of
the correlation set. -/
def headFrozen (d0 : List String) (xid : String) (s : SysState) : Prop :=
  (∃ e2 rest, s.exchanges = e2 :: rest ∧ e2.delivered = d0 ∧
    e2.ctrl ≠ CtrlState.live) ∧ xid ∉ s.localRequestIds

theorem deliverFrame_headFrozen (pc : String → Option Chunk) (fr : Option Frame)
    (s : SysState) (d0 : List String) (xid : String) (h : headFrozen d0 xid s) :
    headFrozen d0 xid (deliverFrame pc fr s) := by
  obtain ⟨⟨e2, rest, hex, hd, hq⟩, hloc⟩ := h
  constructor
  · refine ⟨(onMessageEx fr e2 s.localRequestIds).1,
      (deliverList fr rest (onMessageEx fr e2 s.localRequestIds).2).1, ?_, ?_, ?_⟩
    · show (deliverFrame pc fr s).exchanges = _
      unfold deliverFrame
      simp only [hex, deliverList_cons]
    · rw [(onMessageEx_quiesced fr e2 s.localRequestIds hq).1, hd]
    · rw [(onMessageEx_quiesced fr e2 s.localRequestIds hq).2.1]; exact hq
  · intro hmem
    exact hloc (deliverList_locals fr s.exchanges s.localRequestIds xid hmem)

theorem deliverAll_headFrozen (pc : String → Option Chunk)
    (frs : List (Option Frame)) (s : SysState) (d0 : List String) (xid : String)
    (h : headFrozen d0 xid s) : headFrozen d0 xid (deliverAll pc frs s) := by
  induction frs generalizing s with
  | nil => exact h
  | cons fr frs ih => exact ih _ (deliverFrame_headFrozen pc fr s d0 xid h)

theorem not_mem_setDelete_self (l : List String) (x : String) :
    x ∉ setDelete l x := by
  simp [setDelete, List.mem_filter]

/-- Effect of a first abort-signal firing: delivered chunks are untouched, the
controller is no longer live, and the identifier is removed from the
correlation set. -/
theorem applyCancel_spec (e : Exchange) (l : List String) (ob : List OutFrame)
    (hsf : e.signalFired = false) :
    (applyCancel e l ob).1.delivered = e.delivered ∧
      (applyCancel e l ob).1.ctrl ≠ CtrlState.live ∧
      (applyCancel e l ob).2.1 = setDelete l e.xid := by
  simp only [applyCancel, hsf]
  rcases hc : e.ctrl with _ | _ | msg <;> simp [ctrlClose, hc]

/-- C2: after cancel() is invoked on an in-flight exchange (the abort signal
fires), no further StreamEvent is ever delivered to that exchange's consumer
stream, even if chat-response frames carrying the same correlation identifier
continue to arrive on the transport afterward; the released identifier is
never resurrected by a late frame. -/
theorem c2_cancel_silences_consumer (pc : String → Option Chunk) (chat : ChatSt)
    (e : Exchange) (others : List Exchange) (locals : List String)
    (outbound : List OutFrame) (st0 : Status) (em : Option String)
    (frs : List (Option Frame)) (hsf : e.signalFired = false) :
    (∃ e2 rest,
        (deliverAll pc frs
          ⟨chat, (applyCancel e locals outbound).2.1,
            (applyCancel e locals outbound).1 :: others,
            (applyCancel e locals outbound).2.2, st0, em⟩).exchanges
          = e2 :: rest ∧ e2.delivered = e.delivered) ∧
      e.xid ∉ (deliverAll pc frs
          ⟨chat, (applyCancel e locals outbound).2.1,
            (applyCancel e locals outbound).1 :: others,
            (applyCancel e locals outbound).2.2, st0, em⟩).localRequestIds := by
  obtain ⟨h1, h2, h3⟩ := applyCancel_spec e locals outbound hsf
  have hf : headFrozen e.delivered e.xid
      ⟨chat, (applyCancel e locals outbound).2.1,
        (applyCancel e locals outbound).1 :: others,
        (applyCancel e locals outbound).2.2, st0, em⟩ := by
    refine ⟨⟨(applyCancel e locals outbound).1, others, rfl, h1, h2⟩, ?_⟩
    show e.xid ∉ (applyCancel e locals outbound).2.1
    rw [h3]
    exact not_mem_setDelete_self locals e.xid
  obtain ⟨⟨e2, rest, hex, hd, _⟩, hloc⟩ :=
    deliverAll_headFrozen pc frs _ e.delivered e.xid hf
  exact ⟨⟨e2, rest, hex, hd⟩, hloc⟩

theorem c2_cancel_silences_consumer_witness :
    (∃ e2 rest,
        (deliverAll (fun _ => none)
          [some (Frame.chatResponse ("x1") ("{}") false false)]
          ⟨⟨[], []⟩,
            (applyCancel ⟨"x1", CtrlState.live, [], false, true, false⟩ ["x1"] []).2.1,
            (applyCancel ⟨"x1", CtrlState.live, [], false, true, false⟩ ["x1"] []).1 :: [],
            (applyCancel ⟨"x1", CtrlState.live, [], false, true, false⟩ ["x1"] []).2.2,
            Status.ready, none⟩).exchanges
          = e2 :: rest ∧ e2.delivered = ([] : List String)) ∧
      "x1" ∉ (deliverAll (fun _ => none)
          [some (Frame.chatResponse ("x1") ("{}") false false)]
          ⟨⟨[], []⟩,
            (applyCancel ⟨"x1", CtrlState.live, [], false, true, false⟩ ["x1"] []).2.1,
            (applyCancel ⟨"x1", CtrlState.live, [], false, true, false⟩ ["x1"] []).1 :: [],
            (applyCancel ⟨"x1", CtrlState.live, [], false, true, false⟩ ["x1"] []).2.2,
            Status.ready, none⟩).localRequestIds :=
  c2_cancel_silences_consumer (fun _ => none) ⟨[], []⟩
    ⟨"x1", CtrlState.live, [], false, true, false⟩ [] ["x1"] [] Status.ready none
    [some (Frame.chatResponse ("x1") ("{}") false false)] rfl

/-- C3, counterexample: a `start` event whose messageId already names an
existing Message is not a no-op — the handler appends a second Message with
the same id. -/
theorem c3_counterexample :
    (handleServerMessage
        (fun s => if s = "S" then some (Chunk.start ("m1")) else none)
        [] (some (Frame.chatResponse ("r1") ("S") false false))
        ⟨[⟨"m1", Role.assistant, [MsgPart.text ("old")]⟩], []⟩).messages
      = [⟨"m1", Role.assistant, [MsgPart.text ("old")]⟩,
         ⟨"m1", Role.assistant, []⟩] := by
  decide

/-- C3 (amended): handling a `start` event carrying a nonempty message
identifier appends a new empty assistant Message with that identifier
unconditionally — there is no absence check, so a Message with the same
identifier already present results in a duplicate entry.  Both the broadcast
handler and the `sendMessage` loop behave this way. -/
theorem c3_start_appends_unconditionally (pc : String → Option Chunk)
    (locals : List String) (rid body mid : String) (done err : Bool)
    (st : ChatSt) (ls : LoopState)
    (hloc : rid ∉ locals) (hpc : pc body = some (Chunk.start mid))
    (hmid : mid ≠ "") :
    handleServerMessage pc locals (some (Frame.chatResponse rid body done err)) st
        = ⟨st.messages ++ [⟨mid, Role.assistant, []⟩],
           rsSet rid ⟨mid, ""⟩ st.remoteStreams⟩
      ∧ chunkStep ls (Chunk.start mid)
        = ⟨some mid, ls.textContent, ls.messages ++ [⟨mid, Role.assistant, []⟩]⟩ := by
  constructor
  · simp [handleServerMessage, hloc, hpc, hmid]
  · simp [chunkStep, hmid]

theorem c3_start_appends_unconditionally_witness :
    handleServerMessage
        (fun s => if s = "S" then some (Chunk.start ("m1")) else none)
        [] (some (Frame.chatResponse ("r1") ("S") false false))
        ⟨[⟨"m1", Role.assistant, [MsgPart.text ("old")]⟩], []⟩
      = ⟨[⟨"m1", Role.assistant, [MsgPart.text ("old")]⟩] ++ [⟨"m1", Role.assistant, []⟩],
         rsSet ("r1") ⟨"m1", ""⟩ []⟩
    ∧ chunkStep ⟨none, "", []⟩ (Chunk.start ("m1"))
      = ⟨some ("m1"), "", [] ++ [⟨"m1", Role.assistant, []⟩]⟩ :=
  c3_start_appends_unconditionally
    (fun s => if s = "S" then some (Chunk.start ("m1")) else none)
    [] ("r1") ("S") ("m1") false false
    ⟨[⟨"m1", Role.assistant, [MsgPart.text ("old")]⟩], []⟩ ⟨none, "", []⟩
    (by decide) (by decide) (by decide)

theorem setDelete_eq_of_not_mem (l : List String) (x : String) (h : x ∉ l) :
    setDelete l x = l := by
  apply List.filter_eq_self.mpr
  intro a ha
  simp only [ne_eq, decide_not, Bool.not_eq_eq_eq_not, Bool.not_true,
    decide_eq_false_iff_not]
  exact fun he => h (he ▸ ha)

theorem applyCancel_signalFired (e : Exchange) (l : List String)
    (ob : List OutFrame) : (applyCancel e l ob).1.signalFired = true := by
  rcases hb : e.signalFired
  · simp only [applyCancel, hb, Bool.false_eq_true, if_false]
    rcases hc : e.ctrl with _ | _ | msg <;> simp [ctrlClose, hc]
  · simp [applyCancel, hb]

theorem applyCancel_noop (e : Exchange) (l : List String) (ob : List OutFrame)
    (h : e.signalFired = true) : applyCancel e l ob = (e, l, ob) := by
  simp [applyCancel, h]

/-- C4: cancellation is idempotent — a second cancel() invocation is
swallowed (the abort signal fires at most once, and even the handler itself
is a fixed point), and cancelling after natural done completion leaves the
controller state, the delivered chunks, the listener registration, the abort
flag and the correlation set all unchanged, raising no error (the lone
throwing call, `controller.close()`, sits in a try/catch). -/
theorem c4_cancel_idempotent (e : Exchange) (locals : List String)
    (ob : List OutFrame) (hc : e.ctrl = CtrlState.closed) (ha : e.aborted = true)
    (hl : e.xid ∉ locals) :
    (∀ (e' : Exchange) (l' : List String) (ob' : List OutFrame),
        applyCancel (applyCancel e' l' ob').1 (applyCancel e' l' ob').2.1
            (applyCancel e' l' ob').2.2
          = applyCancel e' l' ob')
      ∧ (applyCancel e locals ob).1.ctrl = e.ctrl
      ∧ (applyCancel e locals ob).1.delivered = e.delivered
      ∧ (applyCancel e locals ob).1.listenerOn = e.listenerOn
      ∧ (applyCancel e locals ob).1.aborted = e.aborted
      ∧ (applyCancel e locals ob).2.1 = locals := by
  refine ⟨?_, ?_⟩
  · intro e' l' ob'
    rw [applyCancel_noop _ _ _ (applyCancel_signalFired e' l' ob')]
  · rcases hb : e.signalFired
    · simp only [applyCancel, hb, Bool.false_eq_true, if_false]
      rw [ha]
      simp [ctrlClose, hc, ha, setDelete_eq_of_not_mem locals e.xid hl]
    · simp [applyCancel, hb]

theorem c4_cancel_idempotent_witness :
    (∀ (e' : Exchange) (l' : List String) (ob' : List OutFrame),
        applyCancel (applyCancel e' l' ob').1 (applyCancel e' l' ob').2.1
            (applyCancel e' l' ob').2.2
          = applyCancel e' l' ob')
      ∧ (applyCancel ⟨"x1", CtrlState.closed, ["data: a\n\n"], true, false, false⟩
          [] []).1.ctrl = CtrlState.closed
      ∧ (applyCancel ⟨"x1", CtrlState.closed, ["data: a\n\n"], true, false, false⟩
          [] []).1.delivered = ["data: a\n\n"]
      ∧ (applyCancel ⟨"x1", CtrlState.closed, ["data: a\n\n"], true, false, false⟩
          [] []).1.listenerOn = false
      ∧ (applyCancel ⟨"x1", CtrlState.closed, ["data: a\n\n"], true, false, false⟩
          [] []).1.aborted = true
      ∧ (applyCancel ⟨"x1", CtrlState.closed, ["data: a\n\n"], true, false, false⟩
          [] []).2.1 = [] :=
  c4_cancel_idempotent ⟨"x1", CtrlState.closed, ["data: a\n\n"], true, false, false⟩
    [] [] rfl rfl (by decide)

/-- C5, counterexample: on the exchange-error exit path the transport listener
is NOT removed — the exchange terminates (controller errored) with its
listener still registered.  Removal only happens in the stream's cancel
callback or the TransformStream flush, and flush never runs when the source
stream errors. -/
theorem c5_counterexample :
    (onMessageEx (some (Frame.chatResponse ("x1") ("boom") false true))
        ⟨"x1", CtrlState.live, [], false, true, false⟩ ["x1"]).1.ctrl
        = CtrlState.errored ("boom")
      ∧ (onMessageEx (some (Frame.chatResponse ("x1") ("boom") false true))
        ⟨"x1", CtrlState.live, [], false, true, false⟩ ["x1"]).1.listenerOn
        = true := by
  decide

/-- C5 (amended): every exchange starts with exactly one registered transport
listener, and the listener is removed on the success (done-frame) exit and on
the cancel exit of a live exchange; on the exchange-error exit, however, the
listener is not removed, and no later frame ever removes it, so errored
exchanges leak their listener. -/
theorem c5_listener_balance (rid : String) (s : SysState) (e : Exchange)
    (l : List String) (ob : List OutFrame) (body : String) (d : Bool)
    (hon : e.listenerOn = true) (hlive : e.ctrl = CtrlState.live)
    (hsf : e.signalFired = false) :
    (startExchange rid s).exchanges
        = s.exchanges ++ [⟨rid, CtrlState.live, [], false, true, false⟩]
      ∧ (onMessageEx (some (Frame.chatResponse e.xid body true false)) e l).1.listenerOn
        = false
      ∧ (applyCancel e l ob).1.listenerOn = false
      ∧ (onMessageEx (some (Frame.chatResponse e.xid body d true)) e l).1.listenerOn
        = true
      ∧ (∀ (e2 : Exchange) (fr : Option Frame) (l2 : List String),
          e2.ctrl ≠ CtrlState.live →
            (onMessageEx fr e2 l2).1.listenerOn = e2.listenerOn) := by
  refine ⟨by simp [startExchange], ?_, ?_, ?_, ?_⟩
  · by_cases htr : trimmedNonempty body <;>
      simp [onMessageEx, hon, hlive, htr, ctrlEnqueue, ctrlClose]
  · simp [applyCancel, hsf, ctrlClose, hlive]
  · simp [onMessageEx, hon, ctrlError, hlive]
  · intro e2 fr l2 hq
    exact (onMessageEx_quiesced fr e2 l2 hq).2.2

theorem c5_listener_balance_witness :
    (startExchange ("r9") ⟨⟨[], []⟩, [], [], [], Status.ready, none⟩).exchanges
        = [] ++ [⟨"r9", CtrlState.live, [], false, true, false⟩]
      ∧ (onMessageEx (some (Frame.chatResponse ("x1") ("B") true false))
          ⟨"x1", CtrlState.live, [], false, true, false⟩ []).1.listenerOn = false
      ∧ (applyCancel ⟨"x1", CtrlState.live, [], false, true, false⟩ [] []).1.listenerOn
        = false
      ∧ (onMessageEx (some (Frame.chatResponse ("x1") ("B") false true))
          ⟨"x1", CtrlState.live, [], false, true, false⟩ []).1.listenerOn = true
      ∧ (∀ (e2 : Exchange) (fr : Option Frame) (l2 : List String),
          e2.ctrl ≠ CtrlState.live →
            (onMessageEx fr e2 l2).1.listenerOn = e2.listenerOn) :=
  c5_listener_balance ("r9") ⟨⟨[], []⟩, [], [], [], Status.ready, none⟩
    ⟨"x1", CtrlState.live, [], false, true, false⟩ [] [] ("B") false
    rfl rfl rfl

theorem rsLookup_none_forall (k : String) (l : List (String × RemoteStream))
    (h : rsLookup k l = none) : ∀ p ∈ l, p.1 ≠ k := by
  induction l with
  | nil => intro p hp; cases hp
  | cons q qs ih =>
    by_cases hq : q.1 = k
    · simp [rsLookup, hq] at h
    · intro p hp
      rcases List.mem_cons.mp hp with rfl | hmem
      · exact hq
      · exact ih (by simpa [rsLookup, hq] using h) p hmem

theorem rsDelete_eq_of_lookup_none (k : String)
    (l : List (String × RemoteStream)) (h : rsLookup k l = none) :
    rsDelete k l = l := by
  apply List.filter_eq_self.mpr
  intro p hp
  have hne := rsLookup_none_forall k l h p hp
  simp [hne]

/-- C6, counterexample: a chat-response frame whose identifier is registered
nowhere (empty correlation state) but whose body parses as a `start` chunk is
NOT ignored — it registers a new remote stream and appends a message. -/
theorem c6_counterexample :
    handleServerMessage
        (fun s => if s = "S" then some (Chunk.start ("m1")) else none)
        [] (some (Frame.chatResponse ("r1") ("S") false false)) ⟨[], []⟩
      ≠ ⟨[], []⟩ := by
  decide

/-- C6 (amended): a chat-response frame whose correlation identifier is not
locally owned and not a known remote stream is ignored — no change to the
message list, the remote-stream table, or any exchange with a different
identifier — UNLESS its body parses as a `start` chunk with a nonempty
messageId, in which case it registers a fresh remote stream and appends a new
assistant Message. -/
theorem c6_unknown_id_ignored_unless_start (pc : String → Option Chunk)
    (locals : List String) (rid body : String) (done err : Bool) (st : ChatSt)
    (hloc : rid ∉ locals) (hrs : rsLookup rid st.remoteStreams = none)
    (hstart : ∀ mid, pc body = some (Chunk.start mid) → mid = "") :
    handleServerMessage pc locals (some (Frame.chatResponse rid body done err)) st
        = st
      ∧ (∀ (e : Exchange) (l : List String), e.xid ≠ rid →
          onMessageEx (some (Frame.chatResponse rid body done err)) e l = (e, l)) := by
  constructor
  · rcases st with ⟨msgs, rss⟩
    cases hb : pc body with
    | none => simp [handleServerMessage, hloc, hb]
    | some ch =>
      cases ch with
      | start mid =>
        have hmid : mid = "" := hstart mid hb
        simp [handleServerMessage, hloc, hb, hmid,
          rsDelete_eq_of_lookup_none rid rss hrs]
      | textDelta d =>
        simp [handleServerMessage, hloc, hb, hrs,
          rsDelete_eq_of_lookup_none rid rss hrs]
      | finish =>
        simp [handleServerMessage, hloc, hb,
          rsDelete_eq_of_lookup_none rid rss hrs]
      | other =>
        simp [handleServerMessage, hloc, hb,
          rsDelete_eq_of_lookup_none rid rss hrs]
  · intro e l hne
    have hne2 : ¬(rid = e.xid) := fun h => hne h.symm
    simp [onMessageEx, hne2]

theorem c6_unknown_id_ignored_unless_start_witness :
    handleServerMessage (fun _ => some Chunk.finish)
        ["a"] (some (Frame.chatResponse ("r1") ("F") false false))
        ⟨[⟨"m0", Role.user, []⟩], []⟩
      = ⟨[⟨"m0", Role.user, []⟩], []⟩
    ∧ (∀ (e : Exchange) (l : List String), e.xid ≠ "r1" →
        onMessageEx (some (Frame.chatResponse ("r1") ("F") false false)) e l
          = (e, l)) :=
  c6_unknown_id_ignored_unless_start (fun _ => some Chunk.finish)
    ["a"] ("r1") ("F") false false ⟨[⟨"m0", Role.user, []⟩], []⟩
    (by decide) rfl (by intro mid h; simp at h)

/-- C7: an inbound frame whose payload is not valid JSON is dropped silently —
the message list, every in-flight exchange, the shared id set, the status and
the error value are all unchanged — and any subsequent frame (in particular a
valid text-delta for an open exchange) is processed exactly as it would have
been without the malformed frame. -/
theorem c7_malformed_frame_dropped (pc : String → Option Chunk) (s : SysState) :
    deliverFrame pc none s = s
      ∧ ∀ fr, deliverFrame pc fr (deliverFrame pc none s) = deliverFrame pc fr s := by
  have hd : ∀ (es : List Exchange) (l : List String),
      deliverList none es l = (es, l) := by
    intro es
    induction es with
    | nil => intro l; rfl
    | cons e es ih =>
      intro l
      rw [deliverList_cons]
      have h1 : onMessageEx none e l = (e, l) := rfl
      simp [h1, ih]
  have h1 : deliverFrame pc none s = s := by
    rcases s with ⟨chat, locals, exs, ob, st0, em⟩
    simp [deliverFrame, handleServerMessage, hd]
  exact ⟨h1, fun fr => by rw [h1]⟩

/-- C8: a chat-response frame flagged as an error terminates only the exchange
carrying its identifier — that exchange's consumer stream fails with an Error
whose message equals the frame's body string (controller errored with the
body), the id is released, no exchange with another identifier changes, and
the broadcast handler leaves the message list untouched (the id is still
locally owned when the frame arrives).  At the facade, the failing
`sendMessage` records the error and flips status to error, while a subsequent
successful `sendMessage` still runs status through streaming to ready. -/
theorem c8_error_frame_scoped (pc : String → Option Chunk) (rid body : String)
    (d : Bool) (e e2 : Exchange) (locals l2 : List String) (chat : ChatSt)
    (st0 : FacadeState) (u : UIMessage) (cs cs2 : List String)
    (hon : e.listenerOn = true) (hlive : e.ctrl = CtrlState.live)
    (hid : e.xid = rid) (h2 : e2.xid ≠ rid) (hloc : rid ∈ locals) :
    onMessageEx (some (Frame.chatResponse rid body d true)) e locals
        = ({ e with ctrl := CtrlState.errored body, aborted := true },
           setDelete locals rid)
      ∧ onMessageEx (some (Frame.chatResponse rid body d true)) e2 l2 = (e2, l2)
      ∧ handleServerMessage pc locals (some (Frame.chatResponse rid body d true)) chat
        = chat
      ∧ (sendMessageBegin u st0).status = Status.streaming
      ∧ (sendMessageFinish pc (StreamOutcome.failure cs body)
          (sendMessageBegin u st0)).status = Status.error
      ∧ (sendMessageFinish pc (StreamOutcome.failure cs body)
          (sendMessageBegin u st0)).errorMsg = some body
      ∧ (sendMessageFinish pc (StreamOutcome.success cs2)
          (sendMessageBegin u st0)).status = Status.ready := by
  refine ⟨?_, ?_, ?_, rfl, rfl, rfl, rfl⟩
  · rcases e with ⟨xid, ctrl, del, ab, lon, sf⟩
    simp only at hon hlive hid
    subst hon hlive hid
    simp [onMessageEx, ctrlError]
  · have hne2 : ¬(rid = e2.xid) := fun h => h2 h.symm
    simp [onMessageEx, hne2]
  · simp [handleServerMessage, hloc]

theorem c8_error_frame_scoped_witness :
    onMessageEx (some (Frame.chatResponse ("r1") ("boom") false true))
        ⟨"r1", CtrlState.live, [], false, true, false⟩ ["r1"]
        = (⟨"r1", CtrlState.errored ("boom"), [], true, true, false⟩,
           setDelete ["r1"] ("r1"))
      ∧ onMessageEx (some (Frame.chatResponse ("r1") ("boom") false true))
          ⟨"r2", CtrlState.live, [], false, true, false⟩ ["r2"]
        = (⟨"r2", CtrlState.live, [], false, true, false⟩, ["r2"])
      ∧ handleServerMessage (fun _ => none) ["r1"]
          (some (Frame.chatResponse ("r1") ("boom") false true))
          ⟨[⟨"m0", Role.user, []⟩], []⟩
        = ⟨[⟨"m0", Role.user, []⟩], []⟩
      ∧ (sendMessageBegin ⟨"u1", Role.user, [MsgPart.text ("hi")]⟩
          ⟨[], Status.ready, none⟩).status = Status.streaming
      ∧ (sendMessageFinish (fun _ => none)
          (StreamOutcome.failure [] ("boom"))
          (sendMessageBegin ⟨"u1", Role.user, [MsgPart.text ("hi")]⟩
            ⟨[], Status.ready, none⟩)).status = Status.error
      ∧ (sendMessageFinish (fun _ => none)
          (StreamOutcome.failure [] ("boom"))
          (sendMessageBegin ⟨"u1", Role.user, [MsgPart.text ("hi")]⟩
            ⟨[], Status.ready, none⟩)).errorMsg = some ("boom")
      ∧ (sendMessageFinish (fun _ => none) (StreamOutcome.success [])
          (sendMessageBegin ⟨"u1", Role.user, [MsgPart.text ("hi")]⟩
            ⟨[], Status.ready, none⟩)).status = Status.ready :=
  c8_error_frame_scoped (fun _ => none) ("r1") ("boom") false
    ⟨"r1", CtrlState.live, [], false, true, false⟩
    ⟨"r2", CtrlState.live, [], false, true, false⟩
    ["r1"] ["r2"] ⟨[⟨"m0", Role.user, []⟩], []⟩ ⟨[], Status.ready, none⟩
    ⟨"u1", Role.user, [MsgPart.text ("hi")]⟩ [] []
    rfl rfl rfl (by decide) (by decide)

/-- C9: a chat-response frame whose correlation identifier is still registered
as locally owned is skipped entirely by the unsolicited-broadcast handler —
the message list and the remote-stream table are untouched, so a local
exchange's streamed output is applied only by its own consumer even when the
far end rebroadcasts the frames. -/
theorem c9_local_frames_skipped_by_broadcast (pc : String → Option Chunk)
    (locals : List String) (rid body : String) (d err : Bool) (chat : ChatSt)
    (hloc : rid ∈ locals) :
    handleServerMessage pc locals (some (Frame.chatResponse rid body d err)) chat
      = chat := by
  simp [handleServerMessage, hloc]

theorem c9_local_frames_skipped_by_broadcast_witness :
    handleServerMessage
        (fun s => if s = "S" then some (Chunk.start ("m9")) else none)
        ["r1"] (some (Frame.chatResponse ("r1") ("S") false false))
        ⟨[⟨"m0", Role.user, []⟩], []⟩
      = ⟨[⟨"m0", Role.user, []⟩], []⟩ :=
  c9_local_frames_skipped_by_broadcast
    (fun s => if s = "S" then some (Chunk.start ("m9")) else none)
    ["r1"] ("r1") ("S") false false ⟨[⟨"m0", Role.user, []⟩], []⟩ (by decide)

/-- C10: when setMessages is called with an updater function, the local list
becomes the updater's result, but the chat-messages frame sent to the far end
carries an empty messages array instead of the computed list, so the remote
copy and the local copy diverge on this path. -/
theorem c10_updater_sends_empty_snapshot (f : List UIMessage → List UIMessage)
    (st : FacadeState) (ob : List OutFrame) :
    (setMessagesModel (MessagesOrFn.fn f) st ob).1.messages = f st.messages
      ∧ (setMessagesModel (MessagesOrFn.fn f) st ob).2
        = ob ++ [OutFrame.chatMessages []] :=
  ⟨rfl, rfl⟩

end AgentChat
